import Mathlib

/-!
Verification of the logaware repository's natural-language specification
against a shallow embedding of `src/logaware/logger.py` and
`src/logaware/metalogger.py`.

Python runtime values that appear as logging keyword arguments, metadata
values and `exc_info` payloads are embedded in the inductive `Value`.
Python dictionaries of keyword arguments are embedded as association
lists with unique keys maintained by the dict operations.  Stack-frame
introspection (`_get_caller`) cannot live in a shallow embedding; the
resolved caller descriptor is therefore an explicit input (`CallerInfo`)
to the logging routine, and the backend's level filter and current
exception state are explicit function/value parameters.
-/

namespace Logaware

/-- A Python value, as used for keyword arguments, metadata values and
`exc_info` payloads.  `obj` stands for an arbitrary object that is not
JSON serializable (e.g. the `NotImplemented` sentinel used in the tests). -/
inductive Value where
  | none
  | bool (b : Bool)
  | int (n : Int)
  | str (s : String)
  | tuple3 (a b c : Value)
  | obj (id : Nat)
  deriving DecidableEq, Repr

/-- A Python `dict` with string keys, embedded as an association list. -/
abbrev Dict := List (String × Value)

/-- First-match lookup, the embedding of `d[k]` / `d.get(k)`. -/
def dictLookup (d : Dict) (k : String) : Option Value :=
  match d with
  | [] => Option.none
  | (k', v) :: rest => if k' = k then some v else dictLookup rest k

/-- Whether the dict has an entry for `k` (`k in d`). -/
def dictContains (d : Dict) (k : String) : Bool :=
  (dictLookup d k).isSome

/-- Remove every entry with key `k`. -/
def dictRemove (d : Dict) (k : String) : Dict :=
  d.filter (fun kv => kv.1 ≠ k)

/-- The embedding of `d.pop(k, default)`: the popped value together with
the remaining dict. -/
def dictPop (d : Dict) (k : String) (default : Value) : Value × Dict :=
  ((dictLookup d k).getD default, dictRemove d k)

/-- The embedding of `d.setdefault(k, default)`. -/
def dictSetdefault (d : Dict) (k : String) (default : Value) : Dict :=
  if dictContains d k then d else d ++ [(k, default)]

/-- Python's `v in (None, '')` test used to exclude empty values. -/
def isEmptyVal (v : Value) : Bool :=
  v = Value.none || v = Value.str ""

/-- The dict comprehension `{k: v for k, v in d.items() if v not in (None, '')}`. -/
def dictFilterNonEmpty (d : Dict) : Dict :=
  d.filter (fun kv => !(isEmptyVal kv.2))

/-- The embedding of `old.update(new)` on a copy of `old`: entries of
`old` keep their position but take the value from `new` when `new` has
their key; keys only in `new` are appended. -/
def dictUpdate (old new : Dict) : Dict :=
  old.map (fun kv => (kv.1, (dictLookup new kv.1).getD kv.2)) ++
    new.filter (fun kv => !(dictContains old kv.1))

/-- Python truthiness for the embedded values. -/
def pyTruthy (v : Value) : Bool :=
  match v with
  | .none => false
  | .bool b => b
  | .int n => n ≠ 0
  | .str s => s ≠ ""
  | .tuple3 _ _ _ => true
  | .obj _ => true

/-- The embedding of Python `str(v)` for the values in scope. -/
def pyStr (v : Value) : String :=
  match v with
  | .none => "None"
  | .bool b => cond b "True" "False"
  | .int n => toString n
  | .str s => s
  | .tuple3 a b c =>
      "(" ++ pyStr a ++ ", " ++ pyStr b ++ ", " ++ pyStr c ++ ")"
  | .obj i => "<object " ++ toString i ++ ">"

/-- Lower-case hexadecimal digit. -/
def hexDigit (n : Nat) : Char :=
  if n < 10 then Char.ofNat (48 + n) else Char.ofNat (87 + n)

/-- JSON escaping of a single character with `ensure_ascii=False`:
non-ASCII characters are emitted literally, only the JSON structural
and control characters are escaped. -/
def jsonEscapeChar (c : Char) : String :=
  if c = '"' then "\\\""
  else if c = '\\' then "\\\\"
  else if c = '\n' then "\\n"
  else if c = '\t' then "\\t"
  else if c = '\r' then "\\r"
  else if c.toNat < 32 then
    "\\u00" ++ String.singleton (hexDigit (c.toNat / 16)) ++
      String.singleton (hexDigit (c.toNat % 16))
  else String.singleton c

/-- JSON escaping of a string with `ensure_ascii=False`. -/
def jsonEscape (s : String) : String :=
  String.join (s.data.map jsonEscapeChar)

/-- The embedding of the JSON serialization of one value, with the
item separator `', '` fixed by `separators=(', ', ':')`.  Serializing a
value with no JSON representation fails, as `json.dumps` raises
`TypeError` there. -/
def serializeValue : Value → Except String String
  | .none => .ok "null"
  | .bool b => .ok (cond b "true" "false")
  | .int n => .ok (toString n)
  | .str s => .ok ("\"" ++ jsonEscape s ++ "\"")
  | .tuple3 a b c => do
      let sa ← serializeValue a
      let sb ← serializeValue b
      let sc ← serializeValue c
      .ok ("[" ++ sa ++ ", " ++ sb ++ ", " ++ sc ++ "]")
  | .obj _ => .error "Object of type obj is not JSON serializable"

/-- Whether a value has a JSON representation. -/
def Value.isSerializable : Value → Bool
  | .obj _ => false
  | .tuple3 a b c => a.isSerializable && b.isSerializable && c.isSerializable
  | _ => true

/-- Lexicographic code-point comparison of character lists, the order
Python compares strings by. -/
def strLtList : List Char → List Char → Bool
  | [], [] => false
  | [], _ :: _ => true
  | _ :: _, [] => false
  | a :: as, b :: bs =>
    if a.toNat < b.toNat then true
    else if b.toNat < a.toNat then false
    else strLtList as bs

/-- String comparison `a ≤ b` by code points. -/
def strLe (a b : String) : Bool :=
  !(strLtList b.data a.data)

/-- Insert an entry into a key-sorted list, keeping it sorted. -/
def insertSorted (p : String × Value) : Dict → Dict
  | [] => [p]
  | q :: rest => if strLe p.1 q.1 then p :: q :: rest else q :: insertSorted p rest

/-- Sort entries ascending by string comparison on the key, the
embedding of `sort_keys=True`. -/
def sortByKey : Dict → Dict
  | [] => []
  | p :: rest => insertSorted p (sortByKey rest)

/-- Emission loop of the object encoder: entries in the given order,
each rendered as `"key":value`, with `', '` between consecutive
entries.  `first` tells whether no entry has been emitted yet. -/
def jsonDumpsGo : Dict → Bool → Except String String
  | [], _ => .ok ""
  | (k, v) :: rest, first => do
      let sv ← serializeValue v
      let tail ← jsonDumpsGo rest false
      .ok ((cond first "" ", ") ++ "\"" ++ jsonEscape k ++ "\":" ++ sv ++ tail)

/-- The embedding of
`json.dumps(d, sort_keys=True, separators=(', ', ':'), ensure_ascii=False)`
for a dict of embedded values. -/
def jsonDumps (d : Dict) : Except String String := do
  let body ← jsonDumpsGo (sortByKey d) true
  .ok ("\x7b" ++ body ++ "\x7d")

/-- One-to-four byte UTF-8 encoding of a character's code point. -/
def utf8EncodeChar (c : Char) : List Nat :=
  let n := c.toNat
  if n < 128 then [n]
  else if n < 2048 then [192 + n / 64, 128 + n % 64]
  else if n < 65536 then [224 + n / 4096, 128 + (n / 64) % 64, 128 + n % 64]
  else [240 + n / 262144, 128 + (n / 4096) % 64, 128 + (n / 64) % 64, 128 + n % 64]

/-- The embedding of `s.encode('utf8')` as the list of byte values. -/
def utf8Encode (s : String) : List Nat :=
  (s.data.map utf8EncodeChar).flatten

/-- The embedding of `LogMeta`: `data` models the stored `_data` dict and
`json` models the `_json` string cached at construction time. -/
structure LogMeta where
  data : Dict
  json : String
  deriving DecidableEq, Repr

/-- The embedding of `LogMeta.__init__(**kwargs)`: the kwargs dict is
stored as is, and the JSON serialization of the dict with empty values
excluded is computed (and thereby validated) immediately; a
serialization failure makes construction fail. -/
def LogMeta.init (kwargs : Dict) : Except String LogMeta := do
  let j ← jsonDumps (dictFilterNonEmpty kwargs)
  .ok { data := kwargs, json := j }

/-- The embedding of `LogMeta.__getitem__` (`None` result = `KeyError`). -/
def LogMeta.getitem (m : LogMeta) (k : String) : Option Value :=
  dictLookup m.data k

/-- The embedding of `LogMeta.__len__`. -/
def LogMeta.len (m : LogMeta) : Nat :=
  m.data.length

/-- The embedding of `LogMeta.__iter__`: the keys of the stored dict. -/
def LogMeta.iterKeys (m : LogMeta) : List String :=
  m.data.map (fun kv => kv.1)

/-- The embedding of `LogMeta.to_dict` (a deep copy of the stored dict;
values are immutable here, so the copy is the dict itself). -/
def LogMeta.to_dict (m : LogMeta) : Dict :=
  m.data

/-- The embedding of `LogMeta.__str__`: the cached JSON text. -/
def LogMeta.toStr (m : LogMeta) : String :=
  m.json

/-- The embedding of `LogMeta.__bytes__`: the cached JSON text encoded
as UTF-8. -/
def LogMeta.toBytes (m : LogMeta) : List Nat :=
  utf8Encode m.json

/-- The embedding of `LogMetaManager`: `meta` models the `_meta`
attribute, which starts out as `None`. -/
structure LogMetaManager where
  meta : Option LogMeta
  deriving DecidableEq, Repr

/-- The kwargs dict actually handed to the `LogMeta` constructor by
`set_meta`: when the current meta is truthy (a non-empty mapping), its
entries are taken first and the new kwargs merged over them. -/
def LogMetaManager.merged (mgr : LogMetaManager) (kwargs : Dict) : Dict :=
  match mgr.meta with
  | Option.none => kwargs
  | some old => if old.data.length ≠ 0 then dictUpdate old.to_dict kwargs else kwargs

/-- The embedding of `LogMetaManager.set_meta(**kwargs)`.  The new
`LogMeta` is fully constructed before it is assigned to `_meta`; when
construction raises, the assignment never happens, so the first
component (the manager state after the call) is the unchanged manager. -/
def LogMetaManager.set_meta (mgr : LogMetaManager) (kwargs : Dict) :
    LogMetaManager × Except String LogMeta :=
  match LogMeta.init (mgr.merged kwargs) with
  | .error e => (mgr, .error e)
  | .ok newMeta => ({ meta := some newMeta }, .ok newMeta)

/-- The embedding of `LogMetaManager.get_meta`. -/
def LogMetaManager.get_meta (mgr : LogMetaManager) : Option LogMeta :=
  mgr.meta

/-- Join a list of strings with a separator between consecutive items. -/
def joinSep (sep : String) : List String → String
  | [] => ""
  | [e] => e
  | e :: rest => e ++ sep ++ joinSep sep rest

/-- Concatenation of items each preceded by the `', '` separator, the
shape of a joined list's tail.  Used to relate the two serializers. -/
def prefJoin : List String → String
  | [] => ""
  | e :: es => ", " ++ e ++ prefJoin es

/-- Render every entry of a dict as `"key":value`, in order, failing on
the first unserializable value. -/
def renderEntries : Dict → Except String (List String)
  | [] => .ok []
  | kv :: rest => do
      let sv ← serializeValue kv.2
      let tail ← renderEntries rest
      .ok (("\"" ++ jsonEscape kv.1 ++ "\":" ++ sv) :: tail)

/-- The canonical JSON form as the specification words it: entries with
`None` or empty-string values excluded, keys sorted ascending by string
comparison, each entry rendered as `"key":value` (`':'` as key/value
separator), entries joined with `', '` as item separator, non-ASCII
characters emitted literally.  Stated independently of `jsonDumps` so
the two can be compared. -/
def canonicalJsonSpec (d : Dict) : Except String String := do
  let entries ← renderEntries (sortByKey (d.filter (fun kv => !(isEmptyVal kv.2))))
  .ok ("\x7b" ++ joinSep ", " entries ++ "\x7d")

/-- The category of error raised by Python's `str.format`, as relevant
here: `KeyError` for a missing keyword, `IndexError` for a positional
(or automatic) replacement field when no positional arguments were
supplied, `ValueError` for a bad format specifier or malformed field. -/
inductive FmtError where
  | keyError (key : String)
  | indexError (msg : String)
  | valueError (msg : String)
  deriving DecidableEq, Repr

/-- Split a character list at the first `'}'`; `none` when there is no
closing brace. -/
def splitAtClose : List Char → Option (List Char × List Char)
  | [] => Option.none
  | '}' :: rest => some ([], rest)
  | c :: rest => (splitAtClose rest).map (fun p => (c :: p.1, p.2))

/-- Split a replacement field at the first `':'` into field name and
format spec (an absent spec is the empty spec). -/
def splitAtColon : List Char → List Char × List Char
  | [] => ([], [])
  | ':' :: rest => ([], rest)
  | c :: rest => let p := splitAtColon rest; (c :: p.1, p.2)

/-- Apply a format spec to a value.  This models the fragment of
Python's format-spec language exercised by the repository: the empty
spec renders via `str`, `'d'` requires an integral value, and any other
spec is rejected by this model. -/
def formatWithSpec (spec : String) (v : Value) : Except FmtError String :=
  if spec = "" then .ok (pyStr v)
  else if spec = "d" then
    match v with
    | .int n => .ok (toString n)
    | .bool b => .ok (cond b "1" "0")
    | _ => .error (.valueError ("Unknown format code d for object of type " ++ pyStr v))
  else .error (.valueError ("format spec " ++ spec ++ " is outside this model"))

/-- Resolve and render one replacement field against keyword arguments
only (`str.format(**kwargs)` is always called with no positional
arguments here): an empty or all-digit field name is a positional
reference and raises `IndexError`; an unknown keyword raises
`KeyError`. -/
def renderField (field : List Char) (kwargs : Dict) : Except FmtError String :=
  let parts := splitAtColon field
  if parts.1.all Char.isDigit then
    .error (.indexError "Replacement index out of range for positional args tuple")
  else
    match dictLookup kwargs (String.mk parts.1) with
    | Option.none => .error (.keyError (String.mk parts.1))
    | some v => formatWithSpec (String.mk parts.2) v

/-- The recursive scan of `str.format`: `'{{'` and `'}}'` are literal
braces, `'{field}'` is replaced by the rendered field, a lone brace is
a `ValueError`.  `fuel` bounds the recursion; each step consumes at
least one character, so `length + 1` fuel always suffices. -/
def pyFormatGo (fuel : Nat) (cs : List Char) (kwargs : Dict) : Except FmtError String :=
  match fuel with
  | 0 => .error (.valueError "format model ran out of fuel")
  | fuel + 1 =>
    match cs with
    | [] => .ok ""
    | '{' :: '{' :: rest => (pyFormatGo fuel rest kwargs).map (fun t => "\x7b" ++ t)
    | '}' :: '}' :: rest => (pyFormatGo fuel rest kwargs).map (fun t => "\x7d" ++ t)
    | '{' :: rest =>
      match splitAtClose rest with
      | Option.none => .error (.valueError "Single brace encountered in format string")
      | some (field, rest') => do
        let rendered ← renderField field kwargs
        let tail ← pyFormatGo fuel rest' kwargs
        .ok (rendered ++ tail)
    | '}' :: _ => .error (.valueError "Single brace encountered in format string")
    | c :: rest => (pyFormatGo fuel rest kwargs).map (fun t => String.singleton c ++ t)

/-- The embedding of `message.format(**kwargs)`. -/
def pyFormat (message : String) (kwargs : Dict) : Except FmtError String :=
  pyFormatGo (message.data.length + 1) message.data kwargs

/-- The embedding of Python `repr(v)` for the values in scope. -/
def pyRepr (v : Value) : String :=
  match v with
  | .str s => "'" ++ s ++ "'"
  | .tuple3 a b c => "(" ++ pyRepr a ++ ", " ++ pyRepr b ++ ", " ++ pyRepr c ++ ")"
  | _ => pyStr v

/-- Python `repr` of a kwargs dict, used in the wrapper error text. -/
def pyReprDict (d : Dict) : String :=
  "\x7b" ++
    String.intercalate ", " (d.map (fun kv => "'" ++ kv.1 ++ "': " ++ pyRepr kv.2)) ++
    "\x7d"

/-- The Python class name of a formatting error. -/
def FmtError.className : FmtError → String
  | .keyError _ => "KeyError"
  | .indexError _ => "IndexError"
  | .valueError _ => "ValueError"

/-- The `str()` of a formatting error (`str(KeyError(k))` is `repr(k)`). -/
def FmtError.toStr : FmtError → String
  | .keyError k => "'" ++ k ++ "'"
  | .indexError m => m
  | .valueError m => m

/-- The embedding of `LogFormatException`: the wrapper message together
with the `original` underlying error kept for inspection. -/
structure LogFormatException where
  message : String
  original : FmtError
  deriving DecidableEq, Repr

/-- Build the `LogFormatException` exactly as `_format_message` raises
it: a descriptive message naming the template, kwargs and underlying
error, with the underlying error stored as `original`. -/
def mkLogFormatException (message : String) (kwargs : Dict) (e : FmtError) :
    LogFormatException :=
  { message := "Error formatting log message " ++ message ++ " with keyword args " ++
      pyReprDict kwargs ++ ": " ++ e.className ++ " -- " ++ e.toStr,
    original := e }

/-- The embedding of `AwareLogger._format_message`: an empty kwargs dict
passes the message through verbatim; otherwise the message is formatted
brace-style and any failure is wrapped in a `LogFormatException`. -/
def AwareLogger._format_message (message : String) (kwargs : Dict) :
    Except LogFormatException String :=
  if kwargs.isEmpty then .ok message
  else
    match pyFormat message kwargs with
    | .ok s => .ok s
    | .error e => .error (mkLogFormatException message kwargs e)

/-- The `extra` mapping attached to a record.  `data` is present exactly
when `_get_extra` put a `'data'` key there; `meta` is present exactly
when the metadata-augmented `_get_extra` put a `'meta'` key there (whose
value may itself be Python `None` when no metadata was ever set). -/
structure Extra where
  data : Option Dict := Option.none
  meta : Option (Option LogMeta) := Option.none
  deriving DecidableEq, Repr

/-- The embedding of `AwareLogger._get_extra`: keep the kwargs entries
whose values are not empty; if any remain they form the `data` key,
otherwise the extra mapping is empty. -/
def AwareLogger._get_extra (message : String) (kwargs : Dict) : Extra :=
  let kept := dictFilterNonEmpty kwargs
  if kept.isEmpty then {} else { data := some kept }

/-- The embedding of `MetaAwareLogger._get_extra`: the base extra with
the current metadata (the result of the injected getter) added under
`meta`, unconditionally. -/
def MetaAwareLogger._get_extra (metaVal : Option LogMeta) (message : String)
    (kwargs : Dict) : Extra :=
  { AwareLogger._get_extra message kwargs with meta := some metaVal }

/-- The embedding of `LogLevel`: numeric value, display name and the
include-traceback flag. -/
structure LogLevel where
  level : Int
  name : String
  traceback : Bool := false
  deriving DecidableEq, Repr

/-- The `_log_levels` dict of a logger type: numeric value to level. -/
abbrev Registry := List (Int × LogLevel)

/-- First-match lookup in a registry (`_log_levels.get(level)`). -/
def registryLookup (r : Registry) (v : Int) : Option LogLevel :=
  match r with
  | [] => Option.none
  | (v', l) :: rest => if v' = v then some l else registryLookup rest v

/-- Dict assignment `levels[val.level] = val`: override every entry with
that numeric value in place, or append when the value is new. -/
def registryInsert (r : Registry) (l : LogLevel) : Registry :=
  if r.any (fun p => p.1 = l.level) then
    r.map (fun p => if p.1 = l.level then (p.1, l) else p)
  else r ++ [(l.level, l)]

/-- Dict merge `levels.update(base_levels)`: insert every entry of `b`
into `a`, later entries overriding. -/
def registryUpdate (a b : Registry) : Registry :=
  b.foldl (fun acc p => registryInsert acc p.2) a

/-- The embedding of `LoggerMetaClass.__new__`: start from the merged
registries of the base types (in base order), then insert every
`LogLevel`-valued attribute declared on the type itself, so the type's
own declarations add new entries or override inherited ones sharing the
same numeric value. -/
def buildLevels (bases : List Registry) (attrs : List LogLevel) : Registry :=
  attrs.foldl registryInsert (bases.foldl registryUpdate [])

/-- The embedding of `AwareLogger.get_level_name`: the display name of
the registered level, or the synthesized `'Level <value>'` placeholder
for an unregistered numeric value. -/
def get_level_name (levels : Registry) (level : Int) : String :=
  match registryLookup levels level with
  | some l => l.name
  | Option.none => "Level " ++ toString level

/-- The `LogLevel` class attributes declared on `AwareLogger` itself
(aliases such as `FATAL = CRITICAL` and `WARN = WARNING` name the same
`LogLevel` object). -/
def AwareLogger.declaredLevels : List LogLevel :=
  [{ level := 50, name := "CRITICAL" },
   { level := 50, name := "CRITICAL" },
   { level := 40, name := "ERROR" },
   { level := 30, name := "WARNING" },
   { level := 30, name := "WARNING" },
   { level := 20, name := "INFO" },
   { level := 10, name := "DEBUG" }]

/-- The `_log_levels` registry that `LoggerMetaClass` builds for
`AwareLogger` (no base registries). -/
def AwareLogger.defaultLevels : Registry :=
  buildLevels [] AwareLogger.declaredLevels

/-- The caller descriptor that `_get_caller` extracts from the
stack frame exactly two levels above itself: the caller's module name
(`None` when the frame has no resolvable module), file path, line
number and function name.  Frame introspection itself cannot live in a
shallow embedding, so the resolved descriptor is an input of the
logging routine, which is exactly the quadruple `_log` destructures. -/
structure CallerInfo where
  moduleName : Option String
  filename : String
  lineNumber : Nat
  funcName : String
  deriving DecidableEq, Repr

/-- The name of `logging.getLogger(module_name)`: the module name, or
`'root'` for the root logger when the module could not be resolved. -/
def loggerNameFor (moduleName : Option String) : String :=
  moduleName.getD "root"

/-- The `exc_info` normalization in `_log`: a falsy value passes
through, a truthy non-tuple is replaced by the current exception state
`sys.exc_info()` (given here as `sysExc`), and the empty exception
triple `(None, None, None)` is normalized to `None`. -/
def normalizeExcInfo (sysExc : Value) (excInfo : Value) : Value :=
  if pyTruthy excInfo then
    let e := match excInfo with
      | .tuple3 _ _ _ => excInfo
      | _ => sysExc
    if e = Value.tuple3 Value.none Value.none Value.none then Value.none else e
  else excInfo

/-- The record `logger.makeRecord` builds, with the fields the spec and
tests observe: logger name, numeric level, overridden location (path,
line, function), post-substitution message, normalized `exc_info`, the
`extra` payload, and the overridden textual level name. -/
structure LogRecord where
  name : String
  levelno : Int
  pathname : String
  lineno : Nat
  msg : String
  excInfo : Value
  funcName : String
  extra : Extra
  levelname : String
  deriving DecidableEq, Repr

/-- The embedding of `AwareLogger._log`.  `getExtra` is the dynamically
dispatched `_get_extra` (base or metadata-augmented); `enabled` is the
backend's `isEnabledFor` filter by logger name and level; `sysExc` is
the current `sys.exc_info()` state; `caller` is the descriptor that
`_get_caller` resolves at the fixed stack depth.  The result is the
returned record (if any) paired with the list of records dispatched via
`logger.handle`; a formatting failure raises instead, before any record
is constructed or dispatched. -/
def AwareLogger._log (levels : Registry) (getExtra : String → Dict → Extra)
    (enabled : String → Int → Bool) (sysExc : Value) (caller : CallerInfo)
    (level : Int) (message : String) (kwargs : Dict) :
    Except LogFormatException (Option LogRecord × List LogRecord) :=
  let loggerName := loggerNameFor caller.moduleName
  if enabled loggerName level then
    let popped := dictPop kwargs "exc_info" (Value.int 0)
    match AwareLogger._format_message message popped.2 with
    | .error e => .error e
    | .ok message' =>
      let extra := getExtra message' popped.2
      let excInfo := normalizeExcInfo sysExc popped.1
      let record : LogRecord :=
        { name := loggerName,
          levelno := level,
          pathname := caller.filename,
          lineno := caller.lineNumber,
          msg := message',
          excInfo := excInfo,
          funcName := caller.funcName,
          extra := extra,
          levelname := get_level_name levels level }
      .ok (some record, [record])
  else
    .ok (Option.none, [])

/-- The embedding of the generic entry point `AwareLogger.log`, which
forwards directly to `_log` with the base `_get_extra`. -/
def AwareLogger.log (levels : Registry) (enabled : String → Int → Bool)
    (sysExc : Value) (caller : CallerInfo) (level : Int) (message : String)
    (kwargs : Dict) : Except LogFormatException (Option LogRecord × List LogRecord) :=
  AwareLogger._log levels AwareLogger._get_extra enabled sysExc caller level
    message kwargs

/-- The embedding of a level method generated by `log_method_factory`
for level `lvl`: a traceback-bearing level defaults `exc_info` to `1`
before forwarding to `_log` at the level's numeric value. -/
def log_method (levels : Registry) (lvl : LogLevel) (enabled : String → Int → Bool)
    (sysExc : Value) (caller : CallerInfo) (message : String) (kwargs : Dict) :
    Except LogFormatException (Option LogRecord × List LogRecord) :=
  let kwargs' :=
    if lvl.traceback then dictSetdefault kwargs "exc_info" (Value.int 1) else kwargs
  AwareLogger._log levels AwareLogger._get_extra enabled sysExc caller lvl.level
    message kwargs'

/-- Observation of a log call's result: the `data` field of the extra
payload of the produced record, when a record was produced. -/
def extraDataOfResult
    (res : Except LogFormatException (Option LogRecord × List LogRecord)) :
    Option (Option Dict) :=
  match res with
  | .ok (some rec, _) => some rec.extra.data
  | _ => Option.none

/-- Observation of a constructed snapshot: its length, the lookup of the
`empty` key, its plain-mapping conversion, its iteration keys and its
JSON text. -/
def logMetaProbe (res : Except String LogMeta) :
    Option (Nat × Option Value × Dict × List String × String) :=
  match res with
  | .ok m => some (m.len, m.getitem "empty", m.to_dict, m.iterKeys, m.toStr)
  | .error _ => Option.none

/-- Concrete record used to exhibit the data/exc_info behavior: what an
enabled call with kwargs `a=1, b=None, exc_info=1` produces. -/
def c4Record : LogRecord :=
  { name := "m"
    levelno := 5
    pathname := "f.py"
    lineno := 1
    msg := "hi"
    excInfo := Value.none
    funcName := "g"
    extra := { data := some [("a", Value.int 1)], meta := Option.none }
    levelname := "Level 5" }

/-- Concrete record used to exhibit message formatting: what an enabled
call of template `args {foo}` with kwargs `foo=1` produces. -/
def c6Record : LogRecord :=
  { name := "m"
    levelno := 5
    pathname := "f.py"
    lineno := 7
    msg := "args 1"
    excInfo := Value.int 0
    funcName := "g"
    extra := { data := some [("foo", Value.int 1)], meta := Option.none }
    levelname := "Level 5" }

/-- A concrete snapshot holding `user='foo'`, used to exhibit manager
behavior on failed updates. -/
def metaFoo : LogMeta :=
  { data := [("user", Value.str "foo")], json := "\x7b\"user\":\"foo\"\x7d" }

/-- A manager whose current snapshot is `metaFoo`. -/
def mgrFoo : LogMetaManager :=
  { meta := some metaFoo }

/-! Helper lemmas. -/

theorem dictRemove_setdefault (d : Dict) (k : String) (v : Value) :
    dictRemove (dictSetdefault d k v) k = dictRemove d k := by
  unfold dictSetdefault
  by_cases h : dictContains d k = true
  · simp [h]
  · simp only [h, if_false, dictRemove, List.filter_append]
    simp

theorem registryLookup_cons (p : Int × LogLevel) (rest : Registry) (v : Int) :
    registryLookup (p :: rest) v =
      if p.1 = v then some p.2 else registryLookup rest v := rfl

theorem registryLookup_map_ne (r : Registry) (l : LogLevel) (v : Int) (hv : v ≠ l.level) :
    registryLookup (r.map (fun p => if p.1 = l.level then (p.1, l) else p)) v =
      registryLookup r v := by
  induction r with
  | nil => rfl
  | cons p rest ih =>
    rw [List.map_cons]
    by_cases hp : p.1 = l.level
    · have hpv : p.1 ≠ v := by rw [hp]; exact fun h => hv h.symm
      rw [if_pos hp, registryLookup_cons, registryLookup_cons, if_neg hpv, if_neg hpv, ih]
    · rw [if_neg hp, registryLookup_cons, registryLookup_cons, ih]

theorem registryLookup_map_eq (r : Registry) (l : LogLevel)
    (h : ∃ p ∈ r, p.1 = l.level) :
    registryLookup (r.map (fun p => if p.1 = l.level then (p.1, l) else p)) l.level =
      some l := by
  induction r with
  | nil => simp at h
  | cons p rest ih =>
    rw [List.map_cons]
    by_cases hp : p.1 = l.level
    · rw [if_pos hp, registryLookup_cons, if_pos hp]
    · have hrest : ∃ q ∈ rest, q.1 = l.level := by
        rcases h with ⟨q, hq, hq1⟩
        rcases List.mem_cons.mp hq with h1 | h2
        · exact absurd (h1 ▸ hq1) hp
        · exact ⟨q, h2, hq1⟩
      rw [if_neg hp, registryLookup_cons, if_neg hp, ih hrest]

theorem registryLookup_append_new (r : Registry) (l : LogLevel) (v : Int)
    (h : ∀ p ∈ r, p.1 ≠ l.level) :
    registryLookup (r ++ [(l.level, l)]) v =
      if v = l.level then some l else registryLookup r v := by
  induction r with
  | nil =>
    rw [List.nil_append, registryLookup_cons]
    by_cases hv : v = l.level
    · rw [if_pos hv.symm, if_pos hv]
    · have hlv : l.level ≠ v := fun h' => hv h'.symm
      rw [if_neg hlv, if_neg hv]
  | cons p rest ih =>
    have hp : p.1 ≠ l.level := h p (List.mem_cons_self p rest)
    have hrest : ∀ q ∈ rest, q.1 ≠ l.level := fun q hq => h q (List.mem_cons_of_mem p hq)
    rw [List.cons_append, registryLookup_cons, registryLookup_cons, ih hrest]
    by_cases hpv : p.1 = v
    · have hv : v ≠ l.level := fun h' => hp (hpv.trans h')
      rw [if_pos hpv, if_pos hpv, if_neg hv]
    · rw [if_neg hpv, if_neg hpv]

theorem registryLookup_insert (r : Registry) (l : LogLevel) (v : Int) :
    registryLookup (registryInsert r l) v =
      if v = l.level then some l else registryLookup r v := by
  unfold registryInsert
  by_cases h : r.any (fun p => p.1 = l.level) = true
  · have hex : ∃ p ∈ r, p.1 = l.level := by
      simpa using List.any_eq_true.mp h
    simp only [h, if_true]
    by_cases hv : v = l.level
    · subst hv
      simp [registryLookup_map_eq r l hex]
    · simp [registryLookup_map_ne r l v hv, hv]
  · have hall : ∀ p ∈ r, p.1 ≠ l.level := by
      intro p hp
      intro hc
      exact h (List.any_eq_true.mpr ⟨p, hp, by simpa using hc⟩)
    simp only [h, if_false]
    exact registryLookup_append_new r l v hall

theorem registryLookup_foldl_insert (attrs : List LogLevel) (r : Registry) (v : Int) :
    registryLookup (attrs.foldl registryInsert r) v =
      match attrs.reverse.find? (fun l => l.level = v) with
      | some l => some l
      | Option.none => registryLookup r v := by
  induction attrs generalizing r with
  | nil => rfl
  | cons a rest ih =>
    rw [List.foldl_cons, ih (registryInsert r a), List.reverse_cons, List.find?_append]
    cases hfind : rest.reverse.find? (fun l => decide (l.level = v)) with
    | some l => simp
    | none =>
      simp only [Option.none_orElse]
      by_cases hv : a.level = v
      · rw [registryLookup_insert, if_pos hv.symm]
        simp [hv]
      · rw [registryLookup_insert, if_neg (fun h => hv h.symm)]
        simp [hv]

@[simp]
theorem exceptBind_ok {α β ε : Type} (a : α) (f : α → Except ε β) :
    (Except.ok a >>= f) = f a := rfl

@[simp]
theorem exceptBind_error {α β ε : Type} (e : ε) (f : α → Except ε β) :
    ((Except.error e : Except ε α) >>= f) = Except.error e := rfl

@[simp]
theorem exceptMap_ok {α β ε : Type} (a : α) (f : α → β) :
    ((Except.ok a : Except ε α).map f) = Except.ok (f a) := rfl

@[simp]
theorem exceptMap_error {α β ε : Type} (e : ε) (f : α → β) :
    ((Except.error e : Except ε α).map f) = (Except.error e : Except ε β) := rfl

theorem serializeValue_error_of_not_serializable (v : Value)
    (h : v.isSerializable = false) : ∃ e, serializeValue v = .error e := by
  induction v with
  | none => simp [Value.isSerializable] at h
  | bool b => simp [Value.isSerializable] at h
  | int n => simp [Value.isSerializable] at h
  | str s => simp [Value.isSerializable] at h
  | obj i => exact ⟨_, rfl⟩
  | tuple3 a b c iha ihb ihc =>
    simp only [Value.isSerializable, Bool.and_eq_false_iff] at h
    rcases h with h | h
    · rcases h with h | h
      · rcases iha h with ⟨e, he⟩
        exact ⟨e, by simp [serializeValue, he]⟩
      · rcases ihb h with ⟨e, he⟩
        cases ha : serializeValue a with
        | error ea => exact ⟨ea, by simp [serializeValue, ha]⟩
        | ok sa => exact ⟨e, by simp [serializeValue, ha, he]⟩
    · rcases ihc h with ⟨e, he⟩
      cases ha : serializeValue a with
      | error ea => exact ⟨ea, by simp [serializeValue, ha]⟩
      | ok sa =>
        cases hb : serializeValue b with
        | error eb => exact ⟨eb, by simp [serializeValue, ha, hb]⟩
        | ok sb => exact ⟨e, by simp [serializeValue, ha, hb, he]⟩

theorem mem_insertSorted (p q : String × Value) (l : Dict) :
    q ∈ insertSorted p l ↔ q = p ∨ q ∈ l := by
  induction l with
  | nil => simp [insertSorted]
  | cons a rest ih =>
    by_cases h : strLe p.1 a.1 = true
    · simp [insertSorted, h]
    · simp only [insertSorted, h, Bool.false_eq_true, if_false, List.mem_cons, ih]
      tauto

theorem mem_sortByKey (q : String × Value) (l : Dict) :
    q ∈ sortByKey l ↔ q ∈ l := by
  induction l with
  | nil => simp [sortByKey]
  | cons a rest ih =>
    simp only [sortByKey, mem_insertSorted, List.mem_cons, ih]

theorem renderEntries_error_of_mem (l : Dict) (kv : String × Value)
    (hmem : kv ∈ l) (hns : kv.2.isSerializable = false) :
    ∃ e, renderEntries l = .error e := by
  induction l with
  | nil => simp at hmem
  | cons a rest ih =>
    rcases List.mem_cons.mp hmem with h | h
    · subst h
      rcases serializeValue_error_of_not_serializable kv.2 hns with ⟨e, he⟩
      exact ⟨e, by simp [renderEntries, he]⟩
    · cases ha : serializeValue a.2 with
      | error ea => exact ⟨ea, by simp [renderEntries, ha]⟩
      | ok sa =>
        rcases ih h with ⟨e, he⟩
        exact ⟨e, by simp [renderEntries, ha, he]⟩

theorem joinSep_eq_prefJoin (e : String) (es : List String) :
    joinSep ", " (e :: es) = e ++ prefJoin es := by
  induction es generalizing e with
  | nil => simp [joinSep, prefJoin]
  | cons e' es' ih =>
    show e ++ ", " ++ joinSep ", " (e' :: es') = _
    rw [ih e']
    simp [prefJoin, String.append_assoc]

theorem jsonDumpsGo_eq_renderEntries (l : Dict) :
    (jsonDumpsGo l true = (renderEntries l).map (fun es => joinSep ", " es)) ∧
      (jsonDumpsGo l false = (renderEntries l).map prefJoin) := by
  induction l with
  | nil => exact ⟨rfl, rfl⟩
  | cons a rest ih =>
    constructor
    · show (do
          let sv ← serializeValue a.2
          let tail ← jsonDumpsGo rest false
          Except.ok ((cond true "" ", ") ++ "\"" ++ jsonEscape a.1 ++ "\":" ++ sv ++ tail) :
            Except String String) = _
      cases ha : serializeValue a.2 with
      | error ea => simp [renderEntries, ha]
      | ok sa =>
        rw [ih.2]
        cases hr : renderEntries rest with
        | error er => simp [renderEntries, ha, hr]
        | ok es =>
          simp only [renderEntries, ha, hr, exceptBind_ok, exceptMap_ok]
          rw [joinSep_eq_prefJoin]
          simp [String.append_assoc]
    · show (do
          let sv ← serializeValue a.2
          let tail ← jsonDumpsGo rest false
          Except.ok ((cond false "" ", ") ++ "\"" ++ jsonEscape a.1 ++ "\":" ++ sv ++ tail) :
            Except String String) = _
      cases ha : serializeValue a.2 with
      | error ea => simp [renderEntries, ha]
      | ok sa =>
        rw [ih.2]
        cases hr : renderEntries rest with
        | error er => simp [renderEntries, ha, hr]
        | ok es =>
          simp [renderEntries, ha, hr, prefJoin, String.append_assoc]
          rw [show (", \"" : String) = ", " ++ "\"" from rfl, String.append_assoc]

theorem jsonDumps_filter_eq_canonical (d : Dict) :
    jsonDumps (dictFilterNonEmpty d) = canonicalJsonSpec d := by
  unfold jsonDumps canonicalJsonSpec dictFilterNonEmpty
  rw [(jsonDumpsGo_eq_renderEntries _).1]
  cases h : renderEntries (sortByKey (d.filter (fun kv => !(isEmptyVal kv.2)))) with
  | error e => simp [h]
  | ok es => simp [h]

theorem jsonDumps_error_of_mem (d : Dict) (kv : String × Value)
    (hmem : kv ∈ d) (hns : kv.2.isSerializable = false) :
    ∃ e, jsonDumps d = .error e := by
  have hmem' : kv ∈ sortByKey d := (mem_sortByKey kv d).mpr hmem
  rcases renderEntries_error_of_mem _ kv hmem' hns with ⟨e, he⟩
  refine ⟨e, ?_⟩
  unfold jsonDumps
  rw [(jsonDumpsGo_eq_renderEntries _).1, he]
  rfl

/-! The claim theorems. -/

/-- C3: when the backend reports logging disabled at the requested level
under the resolved caller's logger name, `_log` is a no-op before any
other work: it returns no record, formats nothing (even a malformed
template raises no error), and dispatches nothing. -/
theorem c3_disabled_noop (levels : Registry) (getExtra : String → Dict → Extra)
    (enabled : String → Int → Bool) (sysExc : Value) (caller : CallerInfo)
    (level : Int) (message : String) (kwargs : Dict)
    (hdis : enabled (loggerNameFor caller.moduleName) level = false) :
    AwareLogger._log levels getExtra enabled sysExc caller level message kwargs =
      .ok (Option.none, []) := by
  unfold AwareLogger._log
  simp [hdis]

/-- C3 witness: a disabled call with a malformed brace template and
keyword arguments still returns no record and raises nothing. -/
theorem c3_witness :
    AwareLogger._log AwareLogger.defaultLevels AwareLogger._get_extra
      (fun _ _ => false) (Value.tuple3 Value.none Value.none Value.none)
      { moduleName := some "tests.test_logger", filename := "/t.py",
        lineNumber := 31, funcName := "test_local_context" }
      10 "bad \x7b0\x7d template" [("foo", Value.int 1)] = .ok (Option.none, []) :=
  c3_disabled_noop _ _ _ _ _ _ _ _ rfl

/-- C1: an enabled log call through the generic entry point or a level
method, at the fixed stack depth that resolves the caller descriptor,
constructs, dispatches and returns a record whose logger name is the
resolved caller's module name, whose numeric level is the requested
level, and whose path, line and function are the resolved caller's
location. -/
theorem c1_caller_location_override (levels : Registry)
    (enabled : String → Int → Bool) (sysExc : Value) (caller : CallerInfo)
    (lvl : LogLevel) (level : Int) (message : String) (kwargs : Dict)
    (m : String) (fmtted : String)
    (hmod : caller.moduleName = some m)
    (hen : enabled m level = true)
    (hlvl : lvl.level = level)
    (hfmt : AwareLogger._format_message message (dictRemove kwargs "exc_info") =
      .ok fmtted) :
    (∃ r, AwareLogger.log levels enabled sysExc caller level message kwargs =
        .ok (some r, [r]) ∧
      r.name = m ∧ r.levelno = level ∧ r.pathname = caller.filename ∧
      r.lineno = caller.lineNumber ∧ r.funcName = caller.funcName) ∧
    (∃ r, log_method levels lvl enabled sysExc caller message kwargs =
        .ok (some r, [r]) ∧
      r.name = m ∧ r.levelno = level ∧ r.pathname = caller.filename ∧
      r.lineno = caller.lineNumber ∧ r.funcName = caller.funcName) := by
  subst hlvl
  have hname : loggerNameFor caller.moduleName = m := by
    simp [loggerNameFor, hmod]
  constructor
  · unfold AwareLogger.log AwareLogger._log
    simp only [hname, hen, if_true, dictPop]
    rw [hfmt]
    exact ⟨_, rfl, rfl, rfl, rfl, rfl, rfl⟩
  · unfold log_method AwareLogger._log
    by_cases ht : lvl.traceback
    · simp only [ht, if_true, hname, hen, dictPop]
      rw [dictRemove_setdefault, hfmt]
      exact ⟨_, rfl, rfl, rfl, rfl, rfl, rfl⟩
    · simp only [ht, Bool.false_eq_true, if_false, hname, hen, if_true, dictPop]
      rw [hfmt]
      exact ⟨_, rfl, rfl, rfl, rfl, rfl, rfl⟩

/-- C1 witness: a concrete enabled call through both the generic entry
point and a traceback-bearing level method yields records stamped with
the caller's module, level and location. -/
theorem c1_witness :
    (∃ r, AwareLogger.log AwareLogger.defaultLevels (fun _ _ => true)
        (Value.tuple3 Value.none Value.none Value.none)
        { moduleName := some "tests.test_logger", filename := "/t.py",
          lineNumber := 31, funcName := "test_local_context" }
        40 "args \x7bfoo\x7d" [("foo", Value.int 1)] = .ok (some r, [r]) ∧
      r.name = "tests.test_logger" ∧ r.levelno = 40 ∧ r.pathname = "/t.py" ∧
      r.lineno = 31 ∧ r.funcName = "test_local_context") ∧
    (∃ r, log_method AwareLogger.defaultLevels
        { level := 40, name := "ERROR", traceback := true } (fun _ _ => true)
        (Value.tuple3 Value.none Value.none Value.none)
        { moduleName := some "tests.test_logger", filename := "/t.py",
          lineNumber := 31, funcName := "test_local_context" }
        "args \x7bfoo\x7d" [("foo", Value.int 1)] = .ok (some r, [r]) ∧
      r.name = "tests.test_logger" ∧ r.levelno = 40 ∧ r.pathname = "/t.py" ∧
      r.lineno = 31 ∧ r.funcName = "test_local_context") :=
  c1_caller_location_override AwareLogger.defaultLevels (fun _ _ => true)
    (Value.tuple3 Value.none Value.none Value.none)
    { moduleName := some "tests.test_logger", filename := "/t.py",
      lineNumber := 31, funcName := "test_local_context" }
    { level := 40, name := "ERROR", traceback := true } 40 "args \x7bfoo\x7d"
    [("foo", Value.int 1)] "tests.test_logger" "args 1" rfl rfl rfl (by rfl)

/-- C2: on an enabled call whose keyword arguments are non-empty after
removing `exc_info`, any brace-formatting failure makes `_log` raise a
`LogFormatException` synchronously — the result is the error, so no
record is constructed or dispatched — and the exception carries the
original underlying error in its `original` field. -/
theorem c2_format_error_fail_fast (levels : Registry)
    (getExtra : String → Dict → Extra) (enabled : String → Int → Bool)
    (sysExc : Value) (caller : CallerInfo) (level : Int) (message : String)
    (kwargs : Dict) (e : FmtError)
    (hen : enabled (loggerNameFor caller.moduleName) level = true)
    (hne : dictRemove kwargs "exc_info" ≠ [])
    (herr : pyFormat message (dictRemove kwargs "exc_info") = .error e) :
    AwareLogger._log levels getExtra enabled sysExc caller level message kwargs =
        .error (mkLogFormatException message (dictRemove kwargs "exc_info") e) ∧
      (mkLogFormatException message (dictRemove kwargs "exc_info") e).original = e := by
  refine ⟨?_, rfl⟩
  unfold AwareLogger._log
  simp only [hen, if_true, dictPop]
  have hfmt : AwareLogger._format_message message (dictRemove kwargs "exc_info") =
      .error (mkLogFormatException message (dictRemove kwargs "exc_info") e) := by
    unfold AwareLogger._format_message
    rw [if_neg (by simpa using hne), herr]
  rw [hfmt]

/-- C2 witness: a template with a positional placeholder and only
keyword arguments raises the wrapper exception whose `original` is the
index-style error. -/
theorem c2_witness :
    AwareLogger._log AwareLogger.defaultLevels AwareLogger._get_extra
        (fun _ _ => true) (Value.tuple3 Value.none Value.none Value.none)
        { moduleName := some "tests.test_logger", filename := "/t.py",
          lineNumber := 229, funcName := "test_log_formatting_error" }
        10 "Some args \x7b0\x7d" [("foo", Value.str "a")] =
      .error (mkLogFormatException "Some args \x7b0\x7d" [("foo", Value.str "a")]
        (FmtError.indexError "Replacement index out of range for positional args tuple")) ∧
    (mkLogFormatException "Some args \x7b0\x7d" [("foo", Value.str "a")]
        (FmtError.indexError "Replacement index out of range for positional args tuple")).original =
      FmtError.indexError "Replacement index out of range for positional args tuple" :=
  c2_format_error_fail_fast AwareLogger.defaultLevels AwareLogger._get_extra
    (fun _ _ => true) (Value.tuple3 Value.none Value.none Value.none)
    { moduleName := some "tests.test_logger", filename := "/t.py",
      lineNumber := 229, funcName := "test_log_formatting_error" }
    10 "Some args \x7b0\x7d" [("foo", Value.str "a")]
    (FmtError.indexError "Replacement index out of range for positional args tuple")
    rfl (by decide) (by rfl)

/-- C6: when `_log` produces a record, its message is the template
verbatim if no keyword arguments remain after removing `exc_info`, and
otherwise it is the brace-style formatting of the template against the
remaining keyword arguments. -/
theorem c6_message_formatting (levels : Registry)
    (getExtra : String → Dict → Extra) (enabled : String → Int → Bool)
    (sysExc : Value) (caller : CallerInfo) (level : Int) (message : String)
    (kwargs : Dict) (r : LogRecord) (ds : List LogRecord)
    (h : AwareLogger._log levels getExtra enabled sysExc caller level message
      kwargs = .ok (some r, ds)) :
    (dictRemove kwargs "exc_info" = [] → r.msg = message) ∧
      (dictRemove kwargs "exc_info" ≠ [] →
        ∀ v, pyFormat message (dictRemove kwargs "exc_info") = .ok v → r.msg = v) := by
  unfold AwareLogger._log at h
  by_cases hen : enabled (loggerNameFor caller.moduleName) level = true
  · simp only [hen, if_true, dictPop] at h
    cases hfmt : AwareLogger._format_message message (dictRemove kwargs "exc_info") with
    | error e => rw [hfmt] at h; exact absurd h (by simp)
    | ok msg' =>
      rw [hfmt] at h
      simp only [Except.ok.injEq, Prod.mk.injEq, Option.some.injEq] at h
      have hr : r.msg = msg' := by rw [← h.1]
      constructor
      · intro hempty
        unfold AwareLogger._format_message at hfmt
        rw [if_pos (by simp [hempty])] at hfmt
        injection hfmt with h5
        rw [hr, ← h5]
      · intro hne v hv
        unfold AwareLogger._format_message at hfmt
        rw [if_neg (by simpa using hne), hv] at hfmt
        injection hfmt with h5
        rw [hr, ← h5]
  · simp only [Bool.not_eq_true] at hen
    simp [hen] at h

/-- C4 counterexample: an enabled call whose only keyword argument is
`exc_info` produces a record whose extra payload has no `data` key at
all — `exc_info` is popped from the keyword arguments before the data
sub-mapping is built, so it never appears under `data`. -/
theorem c4_counterexample :
    extraDataOfResult (AwareLogger.log AwareLogger.defaultLevels (fun _ _ => true)
      (Value.tuple3 Value.none Value.none Value.none)
      { moduleName := some "tests.test_logger", filename := "/t.py",
        lineNumber := 105, funcName := "test_logging_levels" }
      10 "test" [("exc_info", Value.int 1)]) = some Option.none := by
  rfl

/-- C4 (amended): the data sub-mapping is built from the keyword
arguments after `exc_info` has been removed (and after formatting),
excluding entries whose value is `None` or empty string; when the
result is empty the `data` key is omitted — in particular a call whose
only keyword argument is `exc_info` carries no `data` key. -/
theorem c4_data_after_exc_info_removal (levels : Registry)
    (enabled : String → Int → Bool) (sysExc : Value) (caller : CallerInfo)
    (level : Int) (message : String) (kwargs : Dict) (r : LogRecord)
    (ds : List LogRecord)
    (h : AwareLogger.log levels enabled sysExc caller level message kwargs =
      .ok (some r, ds)) :
    r.extra.data =
        (if (dictFilterNonEmpty (dictRemove kwargs "exc_info")).isEmpty then
          Option.none
        else some (dictFilterNonEmpty (dictRemove kwargs "exc_info"))) ∧
      r.extra.meta = Option.none := by
  unfold AwareLogger.log AwareLogger._log at h
  by_cases hen : enabled (loggerNameFor caller.moduleName) level = true
  · simp only [hen, if_true, dictPop] at h
    cases hfmt : AwareLogger._format_message message (dictRemove kwargs "exc_info") with
    | error e => rw [hfmt] at h; exact absurd h (by simp)
    | ok msg' =>
      rw [hfmt] at h
      simp only [Except.ok.injEq, Prod.mk.injEq, Option.some.injEq] at h
      have hx : r.extra = AwareLogger._get_extra msg' (dictRemove kwargs "exc_info") := by
        rw [← h.1]
      unfold AwareLogger._get_extra at hx
      by_cases hk : (dictFilterNonEmpty (dictRemove kwargs "exc_info")).isEmpty
      · rw [if_pos hk] at hx
        rw [hx, if_pos hk]
        exact ⟨rfl, rfl⟩
      · rw [if_neg hk] at hx
        rw [hx, if_neg hk]
        exact ⟨rfl, rfl⟩
  · simp only [Bool.not_eq_true] at hen
    simp [hen] at h

/-- C4 witness: a concrete enabled call with a truthy `exc_info`, one
kept keyword argument and one empty-valued keyword argument; the record
carries exactly the kept argument under `data` and no `meta` key. -/
theorem c4_witness :
    AwareLogger.log [] (fun _ _ => true)
        (Value.tuple3 Value.none Value.none Value.none)
        { moduleName := some "m", filename := "f.py", lineNumber := 1,
          funcName := "g" } 5 "hi"
        [("a", Value.int 1), ("b", Value.none), ("exc_info", Value.int 1)] =
      .ok (some c4Record, [c4Record]) ∧
    (c4Record.extra.data =
        (if (dictFilterNonEmpty (dictRemove
            [("a", Value.int 1), ("b", Value.none), ("exc_info", Value.int 1)]
            "exc_info")).isEmpty then Option.none
        else some (dictFilterNonEmpty (dictRemove
            [("a", Value.int 1), ("b", Value.none), ("exc_info", Value.int 1)]
            "exc_info"))) ∧
      c4Record.extra.meta = Option.none) :=
  ⟨by rfl,
    c4_data_after_exc_info_removal [] (fun _ _ => true)
      (Value.tuple3 Value.none Value.none Value.none)
      { moduleName := some "m", filename := "f.py", lineNumber := 1,
        funcName := "g" } 5 "hi"
      [("a", Value.int 1), ("b", Value.none), ("exc_info", Value.int 1)] _ _
      (by rfl)⟩

/-- C6 witness: a concrete enabled call with one keyword argument; the
produced record's message is the brace-formatted template. -/
theorem c6_witness :
    AwareLogger._log [] AwareLogger._get_extra (fun _ _ => true)
        (Value.tuple3 Value.none Value.none Value.none)
        { moduleName := some "m", filename := "f.py", lineNumber := 7,
          funcName := "g" } 5 "args \x7bfoo\x7d" [("foo", Value.int 1)] =
      .ok (some c6Record, [c6Record]) ∧
    ((dictRemove [("foo", Value.int 1)] "exc_info" = [] →
        c6Record.msg = "args \x7bfoo\x7d") ∧
      (dictRemove [("foo", Value.int 1)] "exc_info" ≠ [] →
        ∀ v, pyFormat "args \x7bfoo\x7d" (dictRemove [("foo", Value.int 1)] "exc_info") =
            .ok v →
          c6Record.msg = v)) :=
  ⟨by rfl,
    c6_message_formatting [] AwareLogger._get_extra (fun _ _ => true)
      (Value.tuple3 Value.none Value.none Value.none)
      { moduleName := some "m", filename := "f.py", lineNumber := 7,
        funcName := "g" } 5 "args \x7bfoo\x7d" [("foo", Value.int 1)] _ _ (by rfl)⟩

/-- C5 counterexample: a snapshot constructed with a single `None`-valued
entry succeeds, and the entry is visible through length, key lookup,
plain-mapping conversion and iteration — only the JSON text excludes it
(it serializes to the empty object). -/
theorem c5_counterexample :
    logMetaProbe (LogMeta.init [("empty", Value.none)]) =
      some (1, some Value.none, [("empty", Value.none)], ["empty"], "\x7b\x7d") := by
  rfl

/-- C5 (amended): empty-valued entries are excluded only from the
cached canonical JSON serialization; the snapshot itself stores the
keyword arguments unfiltered, so such keys remain visible through key
lookup, length, iteration and the plain-mapping conversion. -/
theorem c5_empty_values_only_excluded_from_json (kwargs : Dict) (m : LogMeta)
    (h : LogMeta.init kwargs = .ok m) :
    m.data = kwargs ∧ m.len = kwargs.length ∧
      (∀ k, m.getitem k = dictLookup kwargs k) ∧ m.to_dict = kwargs ∧
      m.iterKeys = kwargs.map (fun kv => kv.1) ∧
      jsonDumps (dictFilterNonEmpty kwargs) = .ok m.json := by
  unfold LogMeta.init at h
  cases hj : jsonDumps (dictFilterNonEmpty kwargs) with
  | error e => rw [hj] at h; exact absurd h (by simp)
  | ok j =>
    rw [hj] at h
    simp only [exceptBind_ok, Except.ok.injEq] at h
    subst h
    exact ⟨rfl, rfl, fun k => rfl, rfl, rfl, rfl⟩

/-- C5 witness: the `None`-valued entry of a concrete snapshot is kept
in the mapping while the JSON text excludes it. -/
theorem c5_witness :
    LogMeta.init [("user", Value.str "bob"), ("empty", Value.none)] =
        .ok { data := [("user", Value.str "bob"), ("empty", Value.none)],
              json := "\x7b\"user\":\"bob\"\x7d" } ∧
      ({ data := [("user", Value.str "bob"), ("empty", Value.none)],
          json := "\x7b\"user\":\"bob\"\x7d" } : LogMeta).data =
        [("user", Value.str "bob"), ("empty", Value.none)] :=
  ⟨by rfl,
    (c5_empty_values_only_excluded_from_json
      [("user", Value.str "bob"), ("empty", Value.none)] _ (by rfl)).1⟩

/-- C7: the cached JSON text of every successfully constructed snapshot
is the canonical form the specification describes (keys sorted
ascending, `', '` item separator, `':'` key/value separator, non-ASCII
literal, empty-valued entries excluded), it is computed once at
construction, the text serialization returns exactly it, and the bytes
serialization is exactly that text encoded as UTF-8. -/
theorem c7_canonical_json (kwargs : Dict) (m : LogMeta)
    (h : LogMeta.init kwargs = .ok m) :
    canonicalJsonSpec kwargs = .ok m.json ∧ m.toStr = m.json ∧
      m.toBytes = utf8Encode m.json := by
  refine ⟨?_, rfl, rfl⟩
  rw [← jsonDumps_filter_eq_canonical]
  exact (c5_empty_values_only_excluded_from_json kwargs m h).2.2.2.2.2

/-- C7 witness: a concrete snapshot with an unsorted argument order, an
empty value and a non-ASCII value serializes to the canonical text, and
its bytes are that text's UTF-8 encoding. -/
theorem c7_witness :
    LogMeta.init [("user", Value.str "bob"), ("id", Value.int 20),
        ("empty", Value.none), ("name", Value.str "bŌŌk")] =
        .ok { data := [("user", Value.str "bob"), ("id", Value.int 20),
                ("empty", Value.none), ("name", Value.str "bŌŌk")],
              json := "\x7b\"id\":20, \"name\":\"bŌŌk\", \"user\":\"bob\"\x7d" } ∧
      (canonicalJsonSpec [("user", Value.str "bob"), ("id", Value.int 20),
          ("empty", Value.none), ("name", Value.str "bŌŌk")] =
          .ok "\x7b\"id\":20, \"name\":\"bŌŌk\", \"user\":\"bob\"\x7d" ∧
        ({ data := [("user", Value.str "bob"), ("id", Value.int 20),
              ("empty", Value.none), ("name", Value.str "bŌŌk")],
            json := "\x7b\"id\":20, \"name\":\"bŌŌk\", \"user\":\"bob\"\x7d" } :
            LogMeta).toStr =
          "\x7b\"id\":20, \"name\":\"bŌŌk\", \"user\":\"bob\"\x7d" ∧
        ({ data := [("user", Value.str "bob"), ("id", Value.int 20),
              ("empty", Value.none), ("name", Value.str "bŌŌk")],
            json := "\x7b\"id\":20, \"name\":\"bŌŌk\", \"user\":\"bob\"\x7d" } :
            LogMeta).toBytes =
          utf8Encode "\x7b\"id\":20, \"name\":\"bŌŌk\", \"user\":\"bob\"\x7d") :=
  ⟨by rfl,
    by
      have := c7_canonical_json [("user", Value.str "bob"), ("id", Value.int 20),
        ("empty", Value.none), ("name", Value.str "bŌŌk")]
        { data := [("user", Value.str "bob"), ("id", Value.int 20),
            ("empty", Value.none), ("name", Value.str "bŌŌk")],
          json := "\x7b\"id\":20, \"name\":\"bŌŌk\", \"user\":\"bob\"\x7d" } (by rfl)
      exact this⟩

/-- C8: level-name lookup over the registry that the metaclass builds is
total: ancestor registries are merged first, the type's own declarations
override entries sharing the same numeric value (the last declaration
winning), and any unregistered numeric value resolves to the synthesized
`'Level <value>'` placeholder rather than failing. -/
theorem c8_level_name_total_with_override (bases : List Registry)
    (attrs : List LogLevel) (v : Int) :
    get_level_name (buildLevels bases attrs) v =
      match attrs.reverse.find? (fun l => l.level = v) with
      | some l => l.name
      | Option.none =>
        match registryLookup (bases.foldl registryUpdate []) v with
        | some l => l.name
        | Option.none => "Level " ++ toString v := by
  unfold get_level_name buildLevels
  rw [registryLookup_foldl_insert]
  cases hfind : attrs.reverse.find? (fun l => decide (l.level = v)) with
  | some l => rfl
  | none => rfl

/-- C9: constructing a snapshot — directly or through the manager's
`set_meta` — over keyword arguments containing a non-serializable value
(that survives the empty-value filter) fails at construction time. -/
theorem c9_nonserializable_fails_at_construction (mgr : LogMetaManager)
    (kwargs : Dict) (k : String) (v : Value)
    (hmem : (k, v) ∈ dictFilterNonEmpty (mgr.merged kwargs))
    (hns : v.isSerializable = false) :
    (∃ e, LogMeta.init (mgr.merged kwargs) = .error e) ∧
      (∃ e, (mgr.set_meta kwargs).2 = .error e) := by
  rcases jsonDumps_error_of_mem _ (k, v) hmem hns with ⟨e, he⟩
  have hinit : LogMeta.init (mgr.merged kwargs) = .error e := by
    unfold LogMeta.init
    rw [he]
    rfl
  refine ⟨⟨e, hinit⟩, ⟨e, ?_⟩⟩
  unfold LogMetaManager.set_meta
  rw [hinit]

/-- C9 witness: merging a non-serializable sentinel value over existing
metadata fails at `set_meta`/`LogMeta` construction time. -/
theorem c9_witness :
    (("bad", Value.obj 7) ∈ dictFilterNonEmpty (mgrFoo.merged [("bad", Value.obj 7)])) ∧
      ((∃ e, LogMeta.init (mgrFoo.merged [("bad", Value.obj 7)]) = .error e) ∧
        (∃ e, (mgrFoo.set_meta [("bad", Value.obj 7)]).2 = .error e)) :=
  ⟨by decide,
    c9_nonserializable_fails_at_construction mgrFoo [("bad", Value.obj 7)] "bad"
      (Value.obj 7) (by decide) rfl⟩

/-- C10: when `set_meta` fails because a value is not serializable, the
manager's state is unchanged — the new snapshot is fully constructed
before it replaces the old one — so `get_meta` still returns the
previous snapshot. -/
theorem c10_set_meta_failure_preserves_state (mgr : LogMetaManager)
    (kwargs : Dict) (mgr' : LogMetaManager) (e : String)
    (h : mgr.set_meta kwargs = (mgr', .error e)) :
    mgr' = mgr ∧ mgr'.get_meta = mgr.get_meta := by
  unfold LogMetaManager.set_meta at h
  cases hinit : LogMeta.init (mgr.merged kwargs) with
  | error e' =>
    rw [hinit] at h
    have h1 : mgr = mgr' := congrArg Prod.fst h
    exact ⟨h1.symm, by rw [h1]⟩
  | ok nm =>
    rw [hinit] at h
    have h2 : (Except.ok nm : Except String LogMeta) = .error e := congrArg Prod.snd h
    exact absurd h2 (by simp)

/-- C10 witness: a failing `set_meta` over concrete existing metadata
leaves the manager exactly as it was. -/
theorem c10_witness :
    mgrFoo.set_meta [("bad", Value.obj 7)] =
        (mgrFoo, .error "Object of type obj is not JSON serializable") ∧
      (mgrFoo = mgrFoo ∧ mgrFoo.get_meta = mgrFoo.get_meta) :=
  ⟨by rfl,
    c10_set_meta_failure_preserves_state mgrFoo [("bad", Value.obj 7)] mgrFoo
      "Object of type obj is not JSON serializable" (by rfl)⟩

end Logaware
